import Mathlib

/-
Shallow embedding of the dual-stream playback engine of src/main.py
(audio-karaoke-helper).  Pure fragments become Lean functions over exact
rationals (Python floats are modelled as exact arithmetic, integers as ℤ/ℕ);
the global mutable playback state becomes an explicit record threaded through
the operations; the concurrently mutated session counter read by a fade
thread becomes an environment schedule giving the value observed at each
atomic action of that thread; device failures and callback faults become
explicit injection parameters, matching the try/except structure of the code.
-/

namespace Engine

/-- Tuning constant FADE_STEP_MS = 25 (milliseconds per fade step). -/
def FADE_STEP_MS : ℕ := 25

/-- Tuning constant FADE_MS = 300 (total fade duration in milliseconds). -/
def FADE_MS : ℕ := 300

/-- Tuning constant SCRUB_DEBOUNCE = 0.15 (seconds of quiet period). -/
def SCRUB_DEBOUNCE : ℚ := 3 / 20

/-- Python int(x) applied to a real value modelled as an exact rational:
truncation toward zero. -/
def py_int (x : ℚ) : ℤ := if 0 ≤ x then ⌊x⌋ else -⌊-x⌋

/-- A sounddevice output-stream handle: whether the stream is currently
running (active) and whether close() has been called on it. -/
structure StreamH where
  active : Bool
  closed : Bool
deriving DecidableEq

/-- The teardown idiom `if st and st.active: st.stop(); st.close()` used in
ramp_fade, stop_immediate and the error handler of start_playback_fast:
both stop() and close() run only when the stream exists and is active. -/
def stopclose_if_active : Option StreamH → Option StreamH
  | none => none
  | some st => if st.active then some ⟨false, true⟩ else some st

/-- The teardown idiom at the top of start_playback_fast: stop() if active,
then close() unconditionally (each in its own try). -/
def stop_then_close : Option StreamH → Option StreamH
  | none => none
  | some _ => some ⟨false, true⟩

/-- Result signal of one callback invocation: either the stream continues or
sd.CallbackStop was raised (stream completion). -/
inductive CbSignal where
  | continue_
  | callbackStop
deriving DecidableEq

/-- Scaling of one stereo sample by master_volume * fade_gain, as in
`audio_data[a:b] * (master_volume * fade_gain)`. -/
def scale (g : ℚ) (p : ℚ × ℚ) : ℚ × ℚ := (p.1 * g, p.2 * g)

/-- Body of play_callback (the try block).  Returns the output block, the new
cursor value and whether an exception (sd.CallbackStop or an internal fault)
was raised inside the try block.  `prev` is the content the output buffer had
when the callback was entered; `fault` injects an arbitrary internal fault at
the start of the try block (claim C8's premise), in which case no branch runs
and the buffer keeps its previous content. -/
def play_callback_try (audio : List (ℚ × ℚ)) (g : ℚ) (start_frame frames : ℕ)
    (prev : List (ℚ × ℚ)) : Bool → List (ℚ × ℚ) × ℕ × Bool
  | true => (prev, start_frame, true)
  | false =>
    if audio.length ≤ start_frame then
      (List.replicate frames (0, 0), start_frame, true)
    else if audio.length < start_frame + frames then
      (((audio.drop start_frame).take (audio.length - start_frame)).map (scale g)
        ++ List.replicate (frames - (audio.length - start_frame)) (0, 0),
       audio.length, true)
    else
      (((audio.drop start_frame).take frames).map (scale g), start_frame + frames, false)

/-- play_callback with its `except Exception: raise sd.CallbackStop` wrapper:
any exception escaping the try block (including the CallbackStop raises of the
first two branches, which subclass Exception) is converted into the single
completion signal; nothing else crosses the real-time boundary. -/
def play_callback (audio : List (ℚ × ℚ)) (g : ℚ) (start_frame frames : ℕ)
    (prev : List (ℚ × ℚ)) (fault : Bool) : List (ℚ × ℚ) × ℕ × CbSignal :=
  let r := play_callback_try audio g start_frame frames prev fault
  (r.1, r.2.1, if r.2.2 = true then CbSignal.callbackStop else CbSignal.continue_)

/-- The process-wide playback state of the module globals (the fields touched
by the engine operations the claims are about). -/
structure PState where
  play_session : ℕ
  playing : Bool
  position : ℤ
  duration : ℚ
  fade_gain : ℚ
  last_tick : Option ℚ
  streams_running : Bool
  stop_after_fade : Bool
  mixed_stream : Option StreamH
  background_stream : Option StreamH
deriving DecidableEq

/-- stop_immediate(): under the playback lock increments the generation,
stops and closes each stream that is active (the `if st and st.active` idiom),
drops both stream variables, resets position to 0 and fade_gain to 1.0,
clears playing, last_tick, streams_running and the pending-stop flag.
Besides the new state it returns the final condition of the two stream
objects that the dropped variables pointed to (ghosts for resource
accounting). -/
def stop_immediate (s : PState) : PState × Option StreamH × Option StreamH :=
  ({s with play_session := s.play_session + 1,
           mixed_stream := none, background_stream := none,
           playing := false, position := 0, fade_gain := 1,
           last_tick := none, streams_running := false,
           stop_after_fade := false},
   stopclose_if_active s.mixed_stream,
   stopclose_if_active s.background_stream)

/-- The position assignment of seek():
`position = int(max(0, min(new_position, int(duration))))`. -/
def seek_clamp (new_position duration : ℚ) : ℤ :=
  py_int (max 0 (min new_position ((py_int duration : ℤ) : ℚ)))

/-- seek(new_position): clamps and stores the position and clears the
pending-stop flag; when paused it additionally resets last_tick (the playing
branch instead hands the stored position to a restart thread, modelled by
start_playback_fast below, which never writes position). -/
def seek (new_position : ℚ) (s : PState) : PState :=
  let s1 := {s with position := seek_clamp new_position s.duration,
                    stop_after_fade := false}
  if s1.playing then s1 else {s1 with last_tick := none}

/-- update_progress_time_based(): returns the new state together with the
value the function returns.  Python int(elapsed) for elapsed ≥ 1 is py_int. -/
def update_progress_time_based (now : ℚ) (s : PState) : PState × ℤ :=
  if s.playing = false then (s, s.position)
  else
    match s.last_tick with
    | none => ({s with last_tick := some now}, s.position)
    | some lt =>
      if 1 ≤ now - lt then
        let inc : ℤ := py_int (now - lt)
        let s1 := {s with position := s.position + inc,
                          last_tick := some (lt + inc)}
        if s1.duration ≤ (s1.position : ℚ) then
          let s2 := (stop_immediate s1).1
          (s2, s2.position)
        else (s1, s1.position)
      else (s, s.position)

/-- Target computed by rewind_5sec: `max(0, int(position - 5))`. -/
def rewind_target (position : ℤ) : ℤ := max 0 (position - 5)

/-- Target computed by forward_5sec: `min(int(duration), int(position + 5))`. -/
def forward_target (position : ℤ) (duration : ℚ) : ℤ :=
  min (py_int duration) (position + 5)

/-- Failure injection point for device acquisition inside
start_playback_fast: creation or start() of either OutputStream raises. -/
inductive FailPoint where
  | createMixed
  | createBg
  | startMixed
  | startBg
deriving DecidableEq

/-- Result of start_playback_fast: the new global state, the final condition
of the two stream objects created during this call (none when creation itself
raised; ghosts kept even after the variables are dropped), and whether the
error popup was shown. -/
structure StartResult where
  st : PState
  mixedObj : Option StreamH
  bgObj : Option StreamH
  errorShown : Bool
deriving DecidableEq

/-- The except-branch of start_playback_fast:
`streams_running = playing = False`, stop+close of each stream variable that
is active (the `if st and st.active` idiom), both variables set to None, and
the error popup shown.  `m` and `b` are the stream objects the variables held
when the exception was raised. -/
def start_rollback (s : PState) (m b : Option StreamH) : StartResult :=
  ⟨{s with streams_running := false, playing := false,
           mixed_stream := none, background_stream := none},
   stopclose_if_active m, stopclose_if_active b, true⟩

/-- start_playback_fast(): under the playback lock increments the generation,
clears the pending-stop flag, tears down any prior streams (stop if active,
close unconditionally — those old objects end closed and are not tracked
further), clears both variables and streams_running, then creates and starts
the two streams.  fade_gain is set to 0.0 only after both creations succeed;
start() marks a stream active.  On success streams_running is set,
last_tick records `now` and a fade to 1.0 is spawned for the new session
(the spawn itself has no further effect on this state).  On any failure the
except-branch start_rollback runs with the variables as they were at the
raise point. -/
def start_playback_fast (failAt : Option FailPoint) (now : ℚ) (s : PState) :
    StartResult :=
  let s0 := {s with play_session := s.play_session + 1,
                    stop_after_fade := false,
                    mixed_stream := none, background_stream := none,
                    streams_running := false}
  match failAt with
  | some FailPoint.createMixed => start_rollback s0 none none
  | some FailPoint.createBg => start_rollback s0 (some ⟨false, false⟩) none
  | some FailPoint.startMixed =>
      start_rollback {s0 with fade_gain := 0}
        (some ⟨false, false⟩) (some ⟨false, false⟩)
  | some FailPoint.startBg =>
      start_rollback {s0 with fade_gain := 0}
        (some ⟨true, false⟩) (some ⟨false, false⟩)
  | none =>
      ⟨{s0 with fade_gain := 0,
                mixed_stream := some ⟨true, false⟩,
                background_stream := some ⟨true, false⟩,
                streams_running := true,
                last_tick := some now},
       some ⟨true, false⟩, some ⟨true, false⟩, false⟩

/-- expo_curve(t, alpha): clamped to 0 for t ≤ 0 and to 1 for t ≥ 1; on the
open interval the code computes (exp(alpha*t)-1)/(exp(alpha)-1), a
transcendental value abstracted here as the parameter f (no claim depends on
interior values). -/
def expo_curveC (f : ℚ → ℚ) (t : ℚ) : ℚ :=
  if t ≤ 0 then 0 else if 1 ≤ t then 1 else f t

/-- The for-loop of ramp_fade, small-step over an environment schedule.
`env c` is the value of the concurrently owned global play_session at clock
instant c of this thread; each iteration occupies three instants: the session
check (`if session_id != play_session: return`), the fade_gain write under the
fade lock, and the sleep.  `rem` counts remaining iterations, so the running
step index is `steps - rem`.  Returns (aborted, state): aborted = true means
the loop returned early at a stale check. -/
def fade_loop (env : ℕ → ℕ) (sid : ℕ) (steps : ℕ) (start_gain target : ℚ)
    (f : ℚ → ℚ) : ℕ → ℕ → PState → Bool × PState
  | 0, _, s => (false, s)
  | rem + 1, clock, s =>
    if env clock = sid then
      let i : ℕ := steps - rem
      let t : ℚ := (i : ℚ) / (steps : ℚ)
      let new_gain := start_gain + (target - start_gain) * expo_curveC f t
      fade_loop env sid steps start_gain target f rem (clock + 3)
        {s with fade_gain := new_gain}
    else (true, s)

/-- The tail of ramp_fade after the loop completes without an abort: the
unconditional `fade_gain = float(target_gain)` write (clock instant `clock`),
then the teardown condition `target_gain == 0.0 and stop_after_fade.is_set()
and session_id == play_session` (session read at clock+1); when it holds,
each active stream is stopped and closed, the playing/streams_running flags
are cleared only if a second session re-check (clock+2) still matches, and
stop_after_fade and last_tick are cleared. -/
def fade_finish (env : ℕ → ℕ) (sid : ℕ) (target : ℚ) (clock : ℕ)
    (s : PState) : PState :=
  let s1 := {s with fade_gain := target}
  if target = 0 ∧ s1.stop_after_fade = true ∧ env (clock + 1) = sid then
    let s2 := {s1 with mixed_stream := stopclose_if_active s1.mixed_stream,
                       background_stream := stopclose_if_active s1.background_stream}
    let s3 := if env (clock + 2) = sid then
                {s2 with playing := false, streams_running := false}
              else s2
    {s3 with stop_after_fade := false, last_tick := none}
  else s1

/-- ramp_fade(target_gain, duration_ms, session_id):
steps = max(1, int(duration_ms / FADE_STEP_MS)), start_gain is read from
fade_gain, then the loop runs from clock 0; an early (stale) return skips the
finish entirely, otherwise fade_finish runs at clock 3*steps. -/
def ramp_fade (env : ℕ → ℕ) (target : ℚ) (duration_ms : ℕ) (sid : ℕ)
    (f : ℚ → ℚ) (s : PState) : PState :=
  let steps := max 1 (duration_ms / FADE_STEP_MS)
  match fade_loop env sid steps s.fade_gain target f steps 0 s with
  | (true, s1) => s1
  | (false, s1) => fade_finish env sid target (3 * steps) s1

/-- State of the scrub/debounce layer of the main loop: the shared position,
the single pending-seek slot, and the trace of debounced seeks actually
performed (each such seek while playing spawns exactly one stream restart). -/
structure ScrubState where
  position : ℤ
  pending_seek_active : Bool
  pending_seek_value : ℤ
  pending_seek_time : ℚ
  fired : List ℤ
deriving DecidableEq

/-- Events processed by the main loop: a raw slider seek request, a rewind or
forward button press (all while playing), and a polling tick at wall-clock
time t. -/
inductive ScrubEvent where
  | progressReq (v : ℤ) (t : ℚ)
  | pressRew (t : ℚ)
  | pressFwd (t : ℚ)
  | tick (t : ℚ)
deriving DecidableEq

/-- Arming (or overwriting) the single pending seek:
`pending_seek_active, pending_seek_value, pending_seek_time = True, v, t`. -/
def arm_pending (v : ℤ) (t : ℚ) (s : ScrubState) : ScrubState :=
  {s with pending_seek_active := true, pending_seek_value := v,
          pending_seek_time := t}

/-- The `-PROGRESS-` slider event handler: while playing it only arms the
pending seek; while paused it performs seek(val) immediately (whose position
assignment is seek_clamp) with no debounce. -/
def progress_event (dur : ℚ) (playing : Bool) (v : ℤ) (t : ℚ)
    (s : ScrubState) : ScrubState :=
  if playing then arm_pending v t s
  else {s with position := seek_clamp (v : ℚ) dur}

/-- rewind_5sec while playing: computes max(0, int(position - 5)) from the
current position and arms the pending seek at time t. -/
def press_rewind (t : ℚ) (s : ScrubState) : ScrubState :=
  arm_pending (rewind_target s.position) t s

/-- forward_5sec while playing: computes min(int(duration), int(position + 5))
from the current position and arms the pending seek at time t. -/
def press_forward (dur : ℚ) (t : ℚ) (s : ScrubState) : ScrubState :=
  arm_pending (forward_target s.position dur) t s

/-- One main-loop iteration at time t restricted to the position/pending
blocks, while playing: if a pending seek is active, the position update is
skipped and the seek fires only once t - pending_seek_time reaches
SCRUB_DEBOUNCE (performing seek(value), whose position assignment is
seek_clamp, and clearing the pending flag); otherwise the position advances
by update_progress_time_based, abstracted by the oracle adv. -/
def scrub_step (dur : ℚ) (adv : ℚ → ℤ → ℤ) (s : ScrubState) :
    ScrubEvent → ScrubState
  | ScrubEvent.progressReq v t => progress_event dur true v t s
  | ScrubEvent.pressRew t => press_rewind t s
  | ScrubEvent.pressFwd t => press_forward dur t s
  | ScrubEvent.tick t =>
    if s.pending_seek_active = true then
      if SCRUB_DEBOUNCE ≤ t - s.pending_seek_time then
        {s with position := seek_clamp (s.pending_seek_value : ℚ) dur,
                pending_seek_active := false,
                fired := s.fired ++ [s.pending_seek_value]}
      else s
    else {s with position := adv t s.position}

/-- Folding a sequence of events through the main loop model. -/
def scrub_run (dur : ℚ) (adv : ℚ → ℤ → ℤ) (s : ScrubState)
    (es : List ScrubEvent) : ScrubState :=
  es.foldl (scrub_step dur adv) s

/-- quiet t0 es: every polling tick in es happens strictly less than
SCRUB_DEBOUNCE after the most recent request/press (initially t0), so no tick
inside the burst lets the debounce fire. -/
def quiet : ℚ → List ScrubEvent → Bool
  | _, [] => true
  | _, ScrubEvent.progressReq _ t :: es => quiet t es
  | _, ScrubEvent.pressRew t :: es => quiet t es
  | _, ScrubEvent.pressFwd t :: es => quiet t es
  | t0, ScrubEvent.tick u :: es =>
      decide (u - t0 < SCRUB_DEBOUNCE) && quiet t0 es

/-- The pending slot obtained after a burst of events when the position is
frozen at p: requests and presses overwrite it, ticks leave it. -/
def pend_after (p : ℤ) (dur : ℚ) : ℤ × ℚ → List ScrubEvent → ℤ × ℚ
  | cur, [] => cur
  | _, ScrubEvent.progressReq v t :: es => pend_after p dur (v, t) es
  | _, ScrubEvent.pressRew t :: es => pend_after p dur (rewind_target p, t) es
  | _, ScrubEvent.pressFwd t :: es =>
      pend_after p dur (forward_target p dur, t) es
  | cur, ScrubEvent.tick _ :: es => pend_after p dur cur es

/-- Whether every event of the list is a polling tick. -/
def all_ticks : List ScrubEvent → Bool
  | [] => true
  | ScrubEvent.tick _ :: es => all_ticks es
  | _ => false

/-- Whether the list contains only rewind/forward presses and ticks. -/
def presses_or_ticks : List ScrubEvent → Bool
  | [] => true
  | ScrubEvent.pressRew _ :: es => presses_or_ticks es
  | ScrubEvent.pressFwd _ :: es => presses_or_ticks es
  | ScrubEvent.tick _ :: es => presses_or_ticks es
  | _ => false

/-- A concrete playback state used to instantiate theorems on closed inputs. -/
def sampleState : PState :=
  { play_session := 1, playing := true, position := 3, duration := 10,
    fade_gain := 1, last_tick := some 0, streams_running := true,
    stop_after_fade := false, mixed_stream := some ⟨true, false⟩,
    background_stream := some ⟨true, false⟩ }

/-- C2: the output callback, given a buffer, a shared cursor and a requested
frame count: if the cursor is at or past the buffer end it fills the output
with silence and signals completion; if the remaining buffer is shorter than
the requested frames it copies the remainder scaled by
master_volume * fade_gain, zero-fills the rest, advances the cursor to the
buffer end and signals completion (exactly this one signal for the call);
otherwise it copies exactly `frames` scaled samples and advances the cursor
by `frames`.  Stated as a pointwise characterisation of the emitted block
together with the cursor and signal equations. -/
theorem play_callback_block_contract (audio : List (ℚ × ℚ)) (g : ℚ) (c f : ℕ)
    (prev : List (ℚ × ℚ)) :
    (play_callback audio g c f prev false).1.length = f
    ∧ (∀ j : ℕ, j < f →
        (play_callback audio g c f prev false).1[j]? =
          some (((audio[c + j]?).map (scale g)).getD (0, 0)))
    ∧ (play_callback audio g c f prev false).2.1 =
        (if audio.length ≤ c then c else min audio.length (c + f))
    ∧ (play_callback audio g c f prev false).2.2 =
        (if audio.length ≤ c ∨ audio.length < c + f then CbSignal.callbackStop
         else CbSignal.continue_) := by
  by_cases h1 : audio.length ≤ c
  · refine ⟨?_, ?_, ?_, ?_⟩
    · simp [play_callback, play_callback_try, if_pos h1]
    · intro j hj
      simp only [play_callback, play_callback_try, if_pos h1]
      rw [List.getElem?_replicate, if_pos hj]
      have hnone : audio[c + j]? = none := List.getElem?_eq_none (by omega)
      rw [hnone]; rfl
    · simp [play_callback, play_callback_try, if_pos h1]
    · simp only [play_callback, play_callback_try, if_pos h1]
      exact (if_pos (Or.inl h1)).symm
  · by_cases h2 : audio.length < c + f
    · refine ⟨?_, ?_, ?_, ?_⟩
      · simp only [play_callback, play_callback_try, if_neg h1, if_pos h2,
          List.length_append, List.length_map, List.length_take,
          List.length_drop, List.length_replicate]
        omega
      · intro j hj
        simp only [play_callback, play_callback_try, if_neg h1, if_pos h2]
        have hlen : (((audio.drop c).take (audio.length - c)).map (scale g)).length
            = audio.length - c := by
          simp [List.length_map, List.length_take, List.length_drop]
        rw [List.getElem?_append]
        by_cases hj2 : j < audio.length - c
        · rw [if_pos (by omega : j < (((audio.drop c).take (audio.length - c)).map (scale g)).length)]
          rw [List.getElem?_map, List.getElem?_take, if_pos hj2, List.getElem?_drop]
          have hx : c + j < audio.length := by omega
          rw [List.getElem?_eq_getElem hx]
          rfl
        · rw [if_neg (by omega : ¬ j < (((audio.drop c).take (audio.length - c)).map (scale g)).length)]
          rw [hlen, List.getElem?_replicate, if_pos (by omega)]
          have hnone : audio[c + j]? = none := List.getElem?_eq_none (by omega)
          rw [hnone]; rfl
      · simp only [play_callback, play_callback_try, if_neg h1, if_pos h2]
        omega
      · simp only [play_callback, play_callback_try, if_neg h1, if_pos h2]
        simp [h2]
    · refine ⟨?_, ?_, ?_, ?_⟩
      · simp only [play_callback, play_callback_try, if_neg h1, if_neg h2,
          List.length_map, List.length_take, List.length_drop]
        omega
      · intro j hj
        simp only [play_callback, play_callback_try, if_neg h1, if_neg h2]
        rw [List.getElem?_map, List.getElem?_take, if_pos hj, List.getElem?_drop]
        have hx : c + j < audio.length := by omega
        rw [List.getElem?_eq_getElem hx]
        rfl
      · simp only [play_callback, play_callback_try, if_neg h1, if_neg h2]
        omega
      · simp only [play_callback, play_callback_try, if_neg h1, if_neg h2]
        have hn : ¬(audio.length ≤ c ∨ audio.length < c + f) := by
          rintro (h | h) <;> omega
        rw [if_neg hn]
        rfl

/-- Witness for C2: a concrete short-tail invocation.  Buffer of two frames,
cursor 1, four frames requested: frame 0 of the block is the scaled remainder,
frame 2 is zero fill, the cursor lands at the buffer end and the call signals
completion. -/
theorem play_callback_block_contract_witness :
    (play_callback [((1 : ℚ), (2 : ℚ)), (3, 4)] 2 1 4 [] false).1[2]?
        = some ((0 : ℚ), (0 : ℚ))
    ∧ (play_callback [((1 : ℚ), (2 : ℚ)), (3, 4)] 2 1 4 [] false).2.1 = 2
    ∧ (play_callback [((1 : ℚ), (2 : ℚ)), (3, 4)] 2 1 4 [] false).2.2
        = CbSignal.callbackStop := by
  have h := play_callback_block_contract [((1 : ℚ), (2 : ℚ)), (3, 4)] 2 1 4 []
  refine ⟨(h.2.1 2 (by decide)).trans (by decide), h.2.2.1.trans (by decide),
    h.2.2.2.trans (by decide)⟩

/-- C8 (amended): any internal fault inside the real-time callback is caught
by the handler `except Exception: raise sd.CallbackStop` and degrades to
signaling stream completion; no other exception crosses the real-time
boundary.  The handler performs no writes of its own: the output block and the
cursor are left exactly as they were when the fault occurred (it does not zero
the block). -/
theorem callback_fault_completion_only (audio : List (ℚ × ℚ)) (g : ℚ)
    (c f : ℕ) (prev : List (ℚ × ℚ)) :
    play_callback audio g c f prev true = (prev, c, CbSignal.callbackStop) := rfl

/-- Counterexample to C8 as stated: a fault hitting the callback while the
output buffer holds non-zero content from the host completes the stream but
does not emit silence — the block is left untouched, not zeroed. -/
theorem callback_fault_output_not_silenced :
    (play_callback [] 1 0 4 [((1 : ℚ), (1 : ℚ)), (1, 1), (1, 1), (1, 1)] true).1
        ≠ List.replicate 4 ((0 : ℚ), (0 : ℚ))
    ∧ (play_callback [] 1 0 4 [((1 : ℚ), (1 : ℚ)), (1, 1), (1, 1), (1, 1)] true).2.2
        = CbSignal.callbackStop := by
  decide

/-- C1 (amended): a fade whose per-step session check observes a stale
session aborts at that check with no further observable mutation.  In
particular (first conjunct) when the session is already stale at the first
check, before any write, the whole state is returned untouched; (second
conjunct) the fade loop never mutates anything but fade_gain — it never
stops or closes streams and never changes playing, streams_running, the
pending-stop flag or last_tick; (third conjunct) a stale session at the
teardown re-check after the loop confines the finish to the single
unconditional fade_gain write.  (That final write itself, and the gain write
of a step whose check has already passed, are not session-guarded — see the
counterexample.) -/
theorem ramp_fade_stale_check_aborts (env : ℕ → ℕ) (target : ℚ) (dms : ℕ)
    (sid : ℕ) (f : ℚ → ℚ) (s : PState) :
    (env 0 ≠ sid → ramp_fade env target dms sid f s = s)
    ∧ (∀ steps sg rem clock s1,
        ((fade_loop env sid steps sg target f rem clock s1).2.playing = s1.playing
        ∧ (fade_loop env sid steps sg target f rem clock s1).2.streams_running
            = s1.streams_running
        ∧ (fade_loop env sid steps sg target f rem clock s1).2.stop_after_fade
            = s1.stop_after_fade
        ∧ (fade_loop env sid steps sg target f rem clock s1).2.last_tick = s1.last_tick
        ∧ (fade_loop env sid steps sg target f rem clock s1).2.mixed_stream
            = s1.mixed_stream
        ∧ (fade_loop env sid steps sg target f rem clock s1).2.background_stream
            = s1.background_stream
        ∧ (fade_loop env sid steps sg target f rem clock s1).2.position = s1.position))
    ∧ (∀ clock s1, env (clock + 1) ≠ sid →
        fade_finish env sid target clock s1 = {s1 with fade_gain := target}) := by
  refine ⟨?_, ?_, ?_⟩
  · intro h
    obtain ⟨k, hk⟩ : ∃ k, max 1 (dms / FADE_STEP_MS) = k + 1 :=
      ⟨max 1 (dms / FADE_STEP_MS) - 1, by omega⟩
    unfold ramp_fade
    rw [hk]
    simp [fade_loop, h]
  · intro steps sg rem
    induction rem with
    | zero => intro clock s1; simp [fade_loop]
    | succ n ih =>
      intro clock s1
      by_cases h : env clock = sid
      · simp only [fade_loop, if_pos h]
        exact ih (clock + 3) _
      · simp [fade_loop, if_neg h]
  · intro clock s1 h
    unfold fade_finish
    rw [if_neg (by intro hc; exact h hc.2.2)]

/-- Witness for C1: a fade whose captured session 3 is already stale against
the constant current generation 5 returns the state completely unchanged. -/
theorem ramp_fade_stale_check_aborts_witness :
    ramp_fade (fun _ => 5) 0 300 3 (fun _ => 0) sampleState = sampleState :=
  (ramp_fade_stale_check_aborts (fun _ => 5) 0 300 3 (fun _ => 0) sampleState).1
    (by decide)

/-- Counterexample to C1 as stated: the per-step check precedes the step's
write without re-checking, and the final target write is not session-guarded
at all.  Here the check at clock 0 passes, the session generation becomes 2
(stale for the captured id 1) from clock 1 on — i.e. exactly when the step's
fade_gain write and the final write happen — and fade_gain is nevertheless
written (it changes from 1 to 0), contradicting the claim that a fade whose
captured id differs from the current generation performs no fade_gain
write. -/
theorem ramp_fade_stale_write_after_check :
    ((fun c => if c = 0 then 1 else 2) : ℕ → ℕ) 1 ≠ 1
    ∧ (ramp_fade (fun c => if c = 0 then 1 else 2) 0 25 1 (fun _ => 0)
        sampleState).fade_gain ≠ sampleState.fade_gain := by
  decide

/-- Helper: Python int() coincides with the floor on non-negative values. -/
theorem py_int_of_nonneg (x : ℚ) (h : 0 ≤ x) : py_int x = ⌊x⌋ := if_pos h

/-- Helper: the position written by seek() for an in-range integer argument
is that argument itself. -/
theorem seek_clamp_int (p : ℤ) (d : ℚ) (hp0 : 0 ≤ p) (hpd : (p : ℚ) ≤ d)
    (hd : 0 ≤ d) : seek_clamp (p : ℚ) d = p := by
  have hfd : py_int d = ⌊d⌋ := if_pos hd
  have hple : p ≤ ⌊d⌋ := Int.le_floor.mpr hpd
  unfold seek_clamp
  rw [hfd]
  rw [min_eq_left (by exact_mod_cast hple)]
  rw [max_eq_right (by exact_mod_cast hp0 : (0 : ℚ) ≤ (p : ℚ))]
  rw [py_int_of_nonneg _ (by exact_mod_cast hp0)]
  exact Int.floor_intCast p

/-- Helper: the position written by seek() is never negative. -/
theorem seek_clamp_nonneg (q d : ℚ) : 0 ≤ seek_clamp q d := by
  unfold seek_clamp
  rw [py_int_of_nonneg _ (le_max_left 0 _)]
  exact Int.le_floor.mpr (by exact_mod_cast le_max_left 0 _)

/-- Helper: the position written by seek() never exceeds the duration. -/
theorem seek_clamp_le (q d : ℚ) (hd : 0 ≤ d) :
    ((seek_clamp q d : ℤ) : ℚ) ≤ d := by
  have hfl : (0 : ℤ) ≤ ⌊d⌋ := Int.le_floor.mpr (by exact_mod_cast hd)
  unfold seek_clamp
  rw [py_int_of_nonneg d hd, py_int_of_nonneg _ (le_max_left 0 _)]
  have h1 : max 0 (min q ((⌊d⌋ : ℤ) : ℚ)) ≤ ((⌊d⌋ : ℤ) : ℚ) :=
    max_le (by exact_mod_cast hfl) (min_le_right _ _)
  have h2 : ⌊max 0 (min q ((⌊d⌋ : ℤ) : ℚ))⌋ ≤ ⌊d⌋ := by
    have h3 := Int.floor_le_floor h1
    rwa [Int.floor_intCast] at h3
  calc ((⌊max 0 (min q ((⌊d⌋ : ℤ) : ℚ))⌋ : ℤ) : ℚ) ≤ ((⌊d⌋ : ℤ) : ℚ) := by
        exact_mod_cast h2
    _ ≤ d := Int.floor_le d

/-- Helper: both branches of seek() store the same clamped position. -/
theorem seek_position (x : ℚ) (s : PState) :
    (seek x s).position = seek_clamp x s.duration := by
  simp only [seek]
  split <;> rfl

/-- C6 (amended): stop_immediate increments the session generation
(invalidating any in-flight fade), sets both stream variables to None,
resets position to 0 and fade_gain to 1.0, clears playing, streams_running,
last_tick and the pending-stop flag; each stream that is currently active is
force-stopped and closed synchronously (an inactive stream object is dropped
without close() — see the counterexample). -/
theorem stop_immediate_contract (s : PState) :
    (stop_immediate s).1.play_session = s.play_session + 1
    ∧ (stop_immediate s).1.playing = false
    ∧ (stop_immediate s).1.position = 0
    ∧ (stop_immediate s).1.fade_gain = 1
    ∧ (stop_immediate s).1.streams_running = false
    ∧ (stop_immediate s).1.stop_after_fade = false
    ∧ (stop_immediate s).1.last_tick = none
    ∧ (stop_immediate s).1.mixed_stream = none
    ∧ (stop_immediate s).1.background_stream = none
    ∧ (∀ st : StreamH, s.mixed_stream = some st → st.active = true →
        (stop_immediate s).2.1 = some ⟨false, true⟩)
    ∧ (∀ st : StreamH, s.background_stream = some st → st.active = true →
        (stop_immediate s).2.2 = some ⟨false, true⟩) := by
  refine ⟨rfl, rfl, rfl, rfl, rfl, rfl, rfl, rfl, rfl, ?_, ?_⟩ <;>
    · intro st hst hact
      simp [stop_immediate, hst, stopclose_if_active, hact]

/-- Witness for C6: stopping from the running sampleState closes the active
mixed stream and resets the position. -/
theorem stop_immediate_contract_witness :
    (stop_immediate sampleState).2.1 = some ⟨false, true⟩
    ∧ (stop_immediate sampleState).1.position = 0 := by
  have h := stop_immediate_contract sampleState
  exact ⟨h.2.2.2.2.2.2.2.2.2.1 ⟨true, false⟩ rfl rfl, h.2.2.1⟩

/-- Counterexample to C6 as stated: when a stream is open but no longer
active (the natural end-of-track situation: the callback raised CallbackStop,
so the stream stopped on its own while remaining open), stop_immediate's
teardown `if stream and stream.active: stream.stop(); stream.close()` skips
both calls, so the dropped object is never closed — stop_immediate does not
close "both streams" unconditionally. -/
theorem stop_immediate_inactive_stream_not_closed :
    (stop_immediate {sampleState with mixed_stream := some ⟨false, false⟩}).2.1
      = some ⟨false, false⟩ := by
  decide

/-- C5 (amended): whenever device acquisition fails at any point of
start_playback_fast (creating or starting either stream), the operation rolls
back the lifecycle state: playing and streams_running are false, both stream
variables are set to None, the failure is surfaced as a user-visible error,
and no created stream object is left running (anything active is stopped and
closed).  A stream that was opened but not yet started is however dropped
without close() — see the counterexample. -/
theorem start_failure_rollback (fp : FailPoint) (now : ℚ) (s : PState) :
    (start_playback_fast (some fp) now s).st.playing = false
    ∧ (start_playback_fast (some fp) now s).st.streams_running = false
    ∧ (start_playback_fast (some fp) now s).st.mixed_stream = none
    ∧ (start_playback_fast (some fp) now s).st.background_stream = none
    ∧ (start_playback_fast (some fp) now s).errorShown = true
    ∧ (∀ st : StreamH, (start_playback_fast (some fp) now s).mixedObj = some st →
        st.active = false)
    ∧ (∀ st : StreamH, (start_playback_fast (some fp) now s).bgObj = some st →
        st.active = false) := by
  cases fp <;> simp [start_playback_fast, start_rollback, stopclose_if_active]

/-- Witness for C5: failure while starting the background stream leaves the
rolled-back stopped state, with the already-running mixed stream stopped. -/
theorem start_failure_rollback_witness :
    (start_playback_fast (some FailPoint.startBg) 0 sampleState).st.playing = false
    ∧ (StreamH.mk false true).active = false := by
  have h := start_failure_rollback FailPoint.startBg 0 sampleState
  exact ⟨h.1, h.2.2.2.2.2.1 ⟨false, true⟩ (by decide)⟩

/-- Counterexample to C5 as stated: when creating the background stream fails,
the already-created (open, not yet started) mixed stream is not torn down —
the error handler only stops/closes active streams, so the object is dropped
still open and unclosed while the other stream failed. -/
theorem start_failure_leaves_unclosed_stream :
    (start_playback_fast (some FailPoint.createBg) 0 sampleState).mixedObj
        = some ⟨false, false⟩
    ∧ (start_playback_fast (some FailPoint.createBg) 0 sampleState).errorShown
        = true := by
  decide

/-- C3: for every valid integer position p in [0, duration], seek(p) stores
exactly p (and the restart a playing seek spawns never writes position, so
the value survives the settle); an out-of-range argument is silently clamped
into [0, duration] (no error — seek is total). -/
theorem seek_exact_and_clamped (s : PState) (p : ℤ) (q : ℚ)
    (hd : 0 ≤ s.duration) (hp0 : 0 ≤ p) (hpd : (p : ℚ) ≤ s.duration) :
    (seek (p : ℚ) s).position = p
    ∧ (∀ failAt now s2, (start_playback_fast failAt now s2).st.position = s2.position)
    ∧ 0 ≤ (seek q s).position ∧ ((seek q s).position : ℚ) ≤ s.duration := by
  refine ⟨?_, ?_, ?_, ?_⟩
  · rw [seek_position]; exact seek_clamp_int p s.duration hp0 hpd hd
  · intro failAt now s2
    cases failAt with
    | none => rfl
    | some fp => cases fp <;> rfl
  · rw [seek_position]; exact seek_clamp_nonneg q s.duration
  · rw [seek_position]; exact seek_clamp_le q s.duration hd

/-- Witness for C3: seeking to 7 in the 10-second sampleState stores 7. -/
theorem seek_exact_and_clamped_witness :
    (seek ((7 : ℤ) : ℚ) sampleState).position = 7 :=
  (seek_exact_and_clamped sampleState 7 0 (by decide) (by decide) (by decide)).1

/-- Helper: the two outcomes of a tick that accumulates at least one whole
second — either the advanced position stays below the duration, or
stop_immediate runs on the advanced state and 0 is returned. -/
theorem update_progress_branches (s : PState) (now lt : ℚ)
    (hp : s.playing = true) (hl : s.last_tick = some lt) (hge : 1 ≤ now - lt) :
    (((s.position + py_int (now - lt) : ℤ) : ℚ) < s.duration →
        update_progress_time_based now s =
          ({s with position := s.position + py_int (now - lt),
                   last_tick := some (lt + (py_int (now - lt) : ℚ))},
           s.position + py_int (now - lt)))
    ∧ (s.duration ≤ ((s.position + py_int (now - lt) : ℤ) : ℚ) →
        update_progress_time_based now s =
          ((stop_immediate {s with position := s.position + py_int (now - lt),
                                   last_tick := some (lt + (py_int (now - lt) : ℚ))}).1,
           0)) := by
  constructor
  · intro hlt2
    simp only [update_progress_time_based, hp, hl, if_pos hge]
    simp only [Bool.true_eq_false, if_false]
    rw [if_neg (not_le.mpr hlt2)]
  · intro hge2
    simp only [update_progress_time_based, hp, hl, if_pos hge]
    simp only [Bool.true_eq_false, if_false]
    rw [if_pos hge2]
    rfl

/-- C4: the position tick.  While not playing it returns the stored position
unchanged; on the first call after a state change (last_tick cleared) it only
records the timestamp; when less than one second has elapsed nothing changes;
otherwise it adds the whole number of elapsed seconds to the position,
advances last_tick by exactly that whole-second amount (so the sub-second
remainder now - last_tick stays in [0, 1): first inner conjunct), and calls
stop_immediate() — which resets the position to 0 — once the position reaches
or exceeds the duration. -/
theorem update_progress_tick_contract (s : PState) (now lt : ℚ) :
    (s.playing = false → update_progress_time_based now s = (s, s.position))
    ∧ (s.playing = true → s.last_tick = none →
        update_progress_time_based now s = ({s with last_tick := some now}, s.position))
    ∧ (s.playing = true → s.last_tick = some lt → now - lt < 1 →
        update_progress_time_based now s = (s, s.position))
    ∧ (s.playing = true → s.last_tick = some lt → 1 ≤ now - lt →
        (0 ≤ (now - lt) - (py_int (now - lt) : ℚ)
          ∧ (now - lt) - (py_int (now - lt) : ℚ) < 1)
        ∧ ((((s.position + py_int (now - lt) : ℤ) : ℚ) < s.duration →
              update_progress_time_based now s =
                ({s with position := s.position + py_int (now - lt),
                         last_tick := some (lt + (py_int (now - lt) : ℚ))},
                 s.position + py_int (now - lt)))
          ∧ (s.duration ≤ ((s.position + py_int (now - lt) : ℤ) : ℚ) →
              update_progress_time_based now s =
                ((stop_immediate {s with
                                    position := s.position + py_int (now - lt),
                                    last_tick := some (lt + (py_int (now - lt) : ℚ))}).1,
                 0)))) := by
  refine ⟨?_, ?_, ?_, ?_⟩
  · intro h; simp [update_progress_time_based, h]
  · intro hp hl; simp [update_progress_time_based, hp, hl]
  · intro hp hl hlt
    simp [update_progress_time_based, hp, hl, not_le.mpr hlt]
  · intro hp hl hge
    have hnn : (0 : ℚ) ≤ now - lt := le_trans (by norm_num) hge
    have hpy : py_int (now - lt) = ⌊now - lt⌋ := py_int_of_nonneg _ hnn
    refine ⟨⟨?_, ?_⟩, ?_, ?_⟩
    · rw [hpy]
      have := Int.floor_le (now - lt)
      linarith
    · rw [hpy]
      have := Int.lt_floor_add_one (now - lt)
      linarith
    · exact (update_progress_branches s now lt hp hl hge).1
    · exact (update_progress_branches s now lt hp hl hge).2

/-- Witness for C4: from the playing sampleState (position 3, last_tick 0),
a tick 3 seconds later adds the 3 whole elapsed seconds to the position and
advances last_tick by the same amount. -/
theorem update_progress_tick_contract_witness :
    update_progress_time_based 3 sampleState
      = ({sampleState with position := 6, last_tick := some 3}, 6) := by
  have h := ((update_progress_tick_contract sampleState 3 0).2.2.2 rfl rfl
    (by norm_num)).2.1 (by norm_num [py_int, sampleState])
  exact h.trans (by norm_num [py_int, sampleState])

/-- C9: the position stays an integer number of seconds (it is ℤ-valued in
the state) with 0 ≤ position ≤ duration across the public operations: seek
clamps into the range, rewind_5sec floors its target at 0, forward_5sec caps
its target at the duration, the position tick preserves the range (invoking
stop_immediate, which resets to 0, once the position would reach or exceed
the duration), and stop_immediate resets to 0. -/
theorem position_invariant_ops (s : PState) (q now : ℚ) (p : ℤ)
    (hd : 0 ≤ s.duration) (h0 : 0 ≤ s.position) (h1 : (s.position : ℚ) ≤ s.duration)
    (hp0 : 0 ≤ p) (hp1 : (p : ℚ) ≤ s.duration) :
    (0 ≤ (seek q s).position ∧ ((seek q s).position : ℚ) ≤ s.duration)
    ∧ (0 ≤ rewind_target p ∧ ((rewind_target p : ℤ) : ℚ) ≤ s.duration)
    ∧ (0 ≤ forward_target p s.duration
        ∧ ((forward_target p s.duration : ℤ) : ℚ) ≤ s.duration)
    ∧ (0 ≤ (update_progress_time_based now s).1.position
        ∧ ((update_progress_time_based now s).1.position : ℚ) ≤ s.duration)
    ∧ (stop_immediate s).1.position = 0 := by
  have hfl : (0 : ℤ) ≤ ⌊s.duration⌋ := Int.le_floor.mpr (by exact_mod_cast hd)
  refine ⟨⟨?_, ?_⟩, ⟨?_, ?_⟩, ⟨?_, ?_⟩, ?_, rfl⟩
  · rw [seek_position]; exact seek_clamp_nonneg q s.duration
  · rw [seek_position]; exact seek_clamp_le q s.duration hd
  · exact le_max_left 0 _
  · have hle : rewind_target p ≤ p := max_le hp0 (by omega)
    calc ((rewind_target p : ℤ) : ℚ) ≤ (p : ℚ) := by exact_mod_cast hle
      _ ≤ s.duration := hp1
  · exact le_min (by rw [py_int_of_nonneg _ hd]; exact hfl) (by omega)
  · have hle : forward_target p s.duration ≤ ⌊s.duration⌋ := by
      rw [forward_target, py_int_of_nonneg _ hd]; exact min_le_left _ _
    calc ((forward_target p s.duration : ℤ) : ℚ) ≤ ((⌊s.duration⌋ : ℤ) : ℚ) := by
          exact_mod_cast hle
      _ ≤ s.duration := Int.floor_le s.duration
  · by_cases hp : s.playing = false
    · simp [update_progress_time_based, hp]; exact ⟨h0, h1⟩
    · have hp2 : s.playing = true := by revert hp; cases s.playing <;> simp
      cases hl : s.last_tick with
      | none =>
        simp [update_progress_time_based, hp2, hl]; exact ⟨h0, h1⟩
      | some lt =>
        by_cases hge : 1 ≤ now - lt
        · have hnn : (0 : ℚ) ≤ now - lt := le_trans (by norm_num) hge
          have hincpos : 0 ≤ py_int (now - lt) := by
            rw [py_int_of_nonneg _ hnn]
            exact Int.le_floor.mpr (by exact_mod_cast hnn)
          by_cases hdur : s.duration ≤ ((s.position + py_int (now - lt) : ℤ) : ℚ)
          · have h4 := (update_progress_branches s now lt hp2 hl hge).2 hdur
            rw [h4]
            exact ⟨le_refl 0, by exact_mod_cast hd⟩
          · have h4 := (update_progress_branches s now lt hp2 hl hge).1
              (lt_of_not_le hdur)
            rw [h4]
            constructor
            · exact add_nonneg h0 hincpos
            · exact le_of_lt (lt_of_not_le hdur)
        · simp [update_progress_time_based, hp2, hl, not_le.mpr (lt_of_not_le hge)]
          exact ⟨h0, h1⟩

/-- Witness for C9: at the sampleState with a large out-of-range seek the
stored position stays within [0, duration]. -/
theorem position_invariant_ops_witness :
    0 ≤ (seek 100 sampleState).position
    ∧ ((seek 100 sampleState).position : ℚ) ≤ sampleState.duration :=
  (position_invariant_ops sampleState 100 0 3 (by decide) (by decide) (by decide)
    (by decide) (by decide)).1

/-- Helper: during a quiet burst (every tick less than the debounce period
after the most recent request) with the pending seek armed, the main loop
leaves the position and the fired trace untouched and merely overwrites the
pending slot, ending with the last request of the burst. -/
theorem scrub_quiet_run (dur : ℚ) (adv : ℚ → ℤ → ℤ) :
    ∀ (es : List ScrubEvent) (s : ScrubState),
      s.pending_seek_active = true →
      quiet s.pending_seek_time es = true →
      (scrub_run dur adv s es).position = s.position
      ∧ (scrub_run dur adv s es).pending_seek_active = true
      ∧ (scrub_run dur adv s es).fired = s.fired
      ∧ (scrub_run dur adv s es).pending_seek_value
          = (pend_after s.position dur
              (s.pending_seek_value, s.pending_seek_time) es).1
      ∧ (scrub_run dur adv s es).pending_seek_time
          = (pend_after s.position dur
              (s.pending_seek_value, s.pending_seek_time) es).2 := by
  intro es
  induction es with
  | nil => intro s hact _; exact ⟨rfl, hact, rfl, rfl, rfl⟩
  | cons e rest ih =>
    intro s hact hq
    cases e with
    | progressReq v t => exact ih (arm_pending v t s) rfl hq
    | pressRew t => exact ih (arm_pending (rewind_target s.position) t s) rfl hq
    | pressFwd t =>
      exact ih (arm_pending (forward_target s.position dur) t s) rfl hq
    | tick u =>
      simp only [quiet, Bool.and_eq_true, decide_eq_true_eq] at hq
      have hstep : scrub_step dur adv s (ScrubEvent.tick u) = s := by
        simp only [scrub_step, hact, if_true]
        rw [if_neg (not_le.mpr hq.1)]
      have hrun : scrub_run dur adv s (ScrubEvent.tick u :: rest)
          = scrub_run dur adv (scrub_step dur adv s (ScrubEvent.tick u)) rest := rfl
      rw [hrun, hstep]
      exact ih s hact hq.2

/-- Helper: with no pending seek armed and only ticks arriving, the debounce
never fires: the fired trace is unchanged and the slot stays clear. -/
theorem scrub_ticks_inactive (dur : ℚ) (adv : ℚ → ℤ → ℤ) :
    ∀ (es : List ScrubEvent) (s : ScrubState),
      s.pending_seek_active = false → all_ticks es = true →
      (scrub_run dur adv s es).fired = s.fired
      ∧ (scrub_run dur adv s es).pending_seek_active = false := by
  intro es
  induction es with
  | nil => intro s hact _; exact ⟨rfl, hact⟩
  | cons e rest ih =>
    intro s hact ht
    cases e with
    | progressReq v t => exact absurd ht (by simp [all_ticks])
    | pressRew t => exact absurd ht (by simp [all_ticks])
    | pressFwd t => exact absurd ht (by simp [all_ticks])
    | tick u =>
      have hstep : scrub_step dur adv s (ScrubEvent.tick u)
          = {s with position := adv u s.position} := by
        simp [scrub_step, hact]
      have hrun : scrub_run dur adv s (ScrubEvent.tick u :: rest)
          = scrub_run dur adv (scrub_step dur adv s (ScrubEvent.tick u)) rest := rfl
      rw [hrun, hstep]
      exact ih {s with position := adv u s.position} hact ht

/-- Helper: with the pending seek armed and only ticks arriving, the first
tick past the quiet period performs the seek exactly once: the fired trace is
extended by exactly the pending value. -/
theorem scrub_ticks_fire (dur : ℚ) (adv : ℚ → ℤ → ℤ) :
    ∀ (es : List ScrubEvent) (s : ScrubState),
      s.pending_seek_active = true → all_ticks es = true →
      (∃ u, ScrubEvent.tick u ∈ es ∧ SCRUB_DEBOUNCE ≤ u - s.pending_seek_time) →
      (scrub_run dur adv s es).fired = s.fired ++ [s.pending_seek_value] := by
  intro es
  induction es with
  | nil =>
    intro s _ _ hex
    rcases hex with ⟨u, hmem, _⟩
    cases hmem
  | cons e rest ih =>
    intro s hact ht hex
    cases e with
    | progressReq v t => exact absurd ht (by simp [all_ticks])
    | pressRew t => exact absurd ht (by simp [all_ticks])
    | pressFwd t => exact absurd ht (by simp [all_ticks])
    | tick u =>
      have hrun : scrub_run dur adv s (ScrubEvent.tick u :: rest)
          = scrub_run dur adv (scrub_step dur adv s (ScrubEvent.tick u)) rest := rfl
      by_cases hfire : SCRUB_DEBOUNCE ≤ u - s.pending_seek_time
      · have hstep : scrub_step dur adv s (ScrubEvent.tick u)
            = {s with position := seek_clamp (s.pending_seek_value : ℚ) dur,
                      pending_seek_active := false,
                      fired := s.fired ++ [s.pending_seek_value]} := by
          simp [scrub_step, hact, hfire]
        rw [hrun, hstep]
        exact (scrub_ticks_inactive dur adv rest _ rfl ht).1
      · have hstep : scrub_step dur adv s (ScrubEvent.tick u) = s := by
          simp only [scrub_step, hact, if_true]
          rw [if_neg hfire]
        rw [hrun, hstep]
        apply ih s hact ht
        rcases hex with ⟨u2, hmem, hge⟩
        rcases List.mem_cons.mp hmem with heq | hmem2
        · have hu : u2 = u := by
            simpa using heq
          rw [hu] at hge
          exact absurd hge hfire
        · exact ⟨u2, hmem2, hge⟩

/-- Helper: under presses and ticks only, the pending value always remains
one of the two frozen-position targets (position - 5 floored at 0, or
position + 5 capped at the duration). -/
theorem pend_after_press_values (p : ℤ) (dur : ℚ) :
    ∀ (es : List ScrubEvent) (cur : ℤ × ℚ),
      presses_or_ticks es = true →
      (cur.1 = rewind_target p ∨ cur.1 = forward_target p dur) →
      ((pend_after p dur cur es).1 = rewind_target p
        ∨ (pend_after p dur cur es).1 = forward_target p dur) := by
  intro es
  induction es with
  | nil => intro cur _ h; exact h
  | cons e rest ih =>
    intro cur hpt h
    cases e with
    | progressReq v t => exact absurd hpt (by simp [presses_or_ticks])
    | pressRew t => exact ih (rewind_target p, t) hpt (Or.inl rfl)
    | pressFwd t => exact ih (forward_target p dur, t) hpt (Or.inr rfl)
    | tick t => exact ih cur hpt h

/-- Helper: both press targets lie in [0, duration] and within 5 seconds of
the position they were computed from. -/
theorem press_target_range (p : ℤ) (dur : ℚ) (hp0 : 0 ≤ p)
    (hpd : (p : ℚ) ≤ dur) (hd : 0 ≤ dur) (v : ℤ)
    (hv : v = rewind_target p ∨ v = forward_target p dur) :
    0 ≤ v ∧ (v : ℚ) ≤ dur ∧ (v - p).natAbs ≤ 5 := by
  have hfl : p ≤ ⌊dur⌋ := Int.le_floor.mpr hpd
  have hfl0 : (0 : ℤ) ≤ ⌊dur⌋ := le_trans hp0 hfl
  have hpy : py_int dur = ⌊dur⌋ := py_int_of_nonneg dur hd
  rcases hv with rfl | rfl
  · refine ⟨le_max_left 0 _, ?_, ?_⟩
    · have h1 : rewind_target p ≤ p := max_le hp0 (by omega)
      calc ((rewind_target p : ℤ) : ℚ) ≤ (p : ℚ) := by exact_mod_cast h1
        _ ≤ dur := hpd
    · unfold rewind_target
      omega
  · unfold forward_target
    rw [hpy]
    refine ⟨le_min hfl0 (by omega), ?_, by omega⟩
    calc ((min ⌊dur⌋ (p + 5) : ℤ) : ℚ) ≤ ((⌊dur⌋ : ℤ) : ℚ) := by
          exact_mod_cast min_le_left _ _
      _ ≤ dur := Int.floor_le dur

/-- C7: seeks while playing are debounced.  A burst opened by a raw request
and kept quiet (each raw request merely overwrites the single pending slot
with its value and timestamp, and no tick inside the burst reaches the
150 ms quiet period since the latest request), followed by polling ticks one
of which finally satisfies now - requestTimestamp ≥ SCRUB_DEBOUNCE, performs
exactly one real seek — one stream restart — targeting the last requested
value, after which the pending request is cleared.  Second conjunct: while
paused, a raw seek applies immediately (the position is clamped and stored at
once) with no pending request armed and no debounced restart. -/
theorem debounced_seek_single_restart (dur : ℚ) (adv : ℚ → ℤ → ℤ)
    (s0 : ScrubState) (v1 : ℤ) (t1 : ℚ) (rest tail : List ScrubEvent)
    (h0 : s0.pending_seek_active = false) (hf : s0.fired = [])
    (hq : quiet t1 rest = true) (ht : all_ticks tail = true)
    (hfire : ∃ u, ScrubEvent.tick u ∈ tail ∧
        SCRUB_DEBOUNCE ≤ u - (pend_after s0.position dur (v1, t1) rest).2) :
    (scrub_run dur adv s0 (ScrubEvent.progressReq v1 t1 :: (rest ++ tail))).fired
      = [(pend_after s0.position dur (v1, t1) rest).1]
    ∧ (∀ (v : ℤ) (t : ℚ) (s1 : ScrubState),
        (progress_event dur false v t s1).position = seek_clamp (v : ℚ) dur
        ∧ (progress_event dur false v t s1).pending_seek_active
            = s1.pending_seek_active
        ∧ (progress_event dur false v t s1).fired = s1.fired) := by
  constructor
  · obtain ⟨hpos, hact2, hfired2, hval2, htime2⟩ :=
      scrub_quiet_run dur adv rest (arm_pending v1 t1 s0) rfl hq
    have h2 := scrub_ticks_fire dur adv tail
      (scrub_run dur adv (arm_pending v1 t1 s0) rest) hact2 ht
      (by
        obtain ⟨u, hm, hg⟩ := hfire
        refine ⟨u, hm, ?_⟩
        rw [htime2]
        exact hg)
    have hrun : scrub_run dur adv s0 (ScrubEvent.progressReq v1 t1 :: (rest ++ tail))
        = scrub_run dur adv
            (scrub_run dur adv (arm_pending v1 t1 s0) rest) tail := by
      simp only [scrub_run, List.foldl_cons, List.foldl_append]
      rfl
    rw [hrun, h2, hfired2, hval2]
    have hfa : (arm_pending v1 t1 s0).fired = [] := hf
    rw [hfa]
    rfl
  · intro v t s1
    refine ⟨?_, ?_, ?_⟩ <;> simp [progress_event]

/-- Witness for C7: ten raw seek requests in one burst (values 1..10) with a
late polling tick produce exactly one debounced seek, targeting the last
value 10. -/
theorem debounced_seek_single_restart_witness :
    (scrub_run 10 (fun _ p => p) ⟨0, false, 0, 0, []⟩
      (ScrubEvent.progressReq 1 0 ::
        ([ScrubEvent.progressReq 2 0, ScrubEvent.progressReq 3 0,
          ScrubEvent.progressReq 4 0, ScrubEvent.progressReq 5 0,
          ScrubEvent.progressReq 6 0, ScrubEvent.progressReq 7 0,
          ScrubEvent.progressReq 8 0, ScrubEvent.progressReq 9 0,
          ScrubEvent.progressReq 10 0] ++ [ScrubEvent.tick 1]))).fired = [10] := by
  have h := (debounced_seek_single_restart 10 (fun _ p => p) ⟨0, false, 0, 0, []⟩
    1 0
    [ScrubEvent.progressReq 2 0, ScrubEvent.progressReq 3 0,
     ScrubEvent.progressReq 4 0, ScrubEvent.progressReq 5 0,
     ScrubEvent.progressReq 6 0, ScrubEvent.progressReq 7 0,
     ScrubEvent.progressReq 8 0, ScrubEvent.progressReq 9 0,
     ScrubEvent.progressReq 10 0] [ScrubEvent.tick 1]
    rfl rfl (by decide) (by decide)
    ⟨1, by simp, by norm_num [SCRUB_DEBOUNCE, pend_after]⟩).1
  exact h

/-- C10 (implicit): while playing, rewind_5sec and forward_5sec never write
the position; each press computes its target from the current position and
arms/overwrites the single pending seek with a fresh timestamp, and the main
loop suspends position ticks while the pending seek is active (the advance
oracle adv is never consulted).  Hence any number of presses within one quiet
period leaves the position frozen, and the single debounced seek that
eventually fires targets a value at most 5 seconds from the frozen position —
not a cumulative jump. -/
theorem press_burst_coalesces (dur : ℚ) (adv : ℚ → ℤ → ℤ) (s0 : ScrubState)
    (e0 : ScrubEvent) (t1 T : ℚ) (rest : List ScrubEvent)
    (h0 : s0.pending_seek_active = false) (hf : s0.fired = [])
    (hp0 : 0 ≤ s0.position) (hpd : (s0.position : ℚ) ≤ dur) (hd : 0 ≤ dur)
    (he0 : e0 = ScrubEvent.pressRew t1 ∨ e0 = ScrubEvent.pressFwd t1)
    (hpt : presses_or_ticks rest = true)
    (hq : quiet t1 rest = true)
    (hT : SCRUB_DEBOUNCE ≤ T - (pend_after s0.position dur (0, 0) (e0 :: rest)).2) :
    (scrub_run dur adv s0 (e0 :: rest)).position = s0.position
    ∧ (scrub_run dur adv s0 ((e0 :: rest) ++ [ScrubEvent.tick T])).fired
        = [(pend_after s0.position dur (0, 0) (e0 :: rest)).1]
    ∧ (scrub_run dur adv s0 ((e0 :: rest) ++ [ScrubEvent.tick T])).position
        = (pend_after s0.position dur (0, 0) (e0 :: rest)).1
    ∧ ((pend_after s0.position dur (0, 0) (e0 :: rest)).1 - s0.position).natAbs
        ≤ 5 := by
  have hvals : (pend_after s0.position dur (0, 0) (e0 :: rest)).1
        = rewind_target s0.position
      ∨ (pend_after s0.position dur (0, 0) (e0 :: rest)).1
        = forward_target s0.position dur := by
    rcases he0 with rfl | rfl
    · exact pend_after_press_values s0.position dur rest _ hpt (Or.inl rfl)
    · exact pend_after_press_values s0.position dur rest _ hpt (Or.inr rfl)
  have hrange := press_target_range s0.position dur hp0 hpd hd _ hvals
  have hclamp : seek_clamp
      ((pend_after s0.position dur (0, 0) (e0 :: rest)).1 : ℚ) dur
      = (pend_after s0.position dur (0, 0) (e0 :: rest)).1 :=
    seek_clamp_int _ dur hrange.1 hrange.2.1 hd
  rcases he0 with rfl | rfl
  · obtain ⟨hpos, hact2, hfired2, hval2, htime2⟩ :=
      scrub_quiet_run dur adv rest
        (arm_pending (rewind_target s0.position) t1 s0) rfl hq
    have hstep : scrub_step dur adv
        (scrub_run dur adv (arm_pending (rewind_target s0.position) t1 s0) rest)
        (ScrubEvent.tick T)
        = {scrub_run dur adv (arm_pending (rewind_target s0.position) t1 s0) rest with
            position := seek_clamp
              (((scrub_run dur adv (arm_pending (rewind_target s0.position) t1 s0)
                  rest).pending_seek_value : ℤ) : ℚ) dur,
            pending_seek_active := false,
            fired := (scrub_run dur adv
                (arm_pending (rewind_target s0.position) t1 s0) rest).fired
              ++ [(scrub_run dur adv
                (arm_pending (rewind_target s0.position) t1 s0) rest).pending_seek_value]} := by
      simp only [scrub_step, hact2, if_true]
      rw [if_pos (by rw [htime2]; exact hT)]
    have hrun : scrub_run dur adv s0
        ((ScrubEvent.pressRew t1 :: rest) ++ [ScrubEvent.tick T])
        = scrub_step dur adv
            (scrub_run dur adv (arm_pending (rewind_target s0.position) t1 s0) rest)
            (ScrubEvent.tick T) := by
      simp only [scrub_run, List.foldl_cons, List.foldl_append]
      rfl
    refine ⟨hpos, ?_, ?_, hrange.2.2⟩
    · rw [hrun, hstep]
      have hfa : (arm_pending (rewind_target s0.position) t1 s0).fired = [] := hf
      simp only [hfired2, hval2, hfa]
      rfl
    · rw [hrun, hstep]
      simp only [hval2]
      exact hclamp
  · obtain ⟨hpos, hact2, hfired2, hval2, htime2⟩ :=
      scrub_quiet_run dur adv rest
        (arm_pending (forward_target s0.position dur) t1 s0) rfl hq
    have hstep : scrub_step dur adv
        (scrub_run dur adv (arm_pending (forward_target s0.position dur) t1 s0) rest)
        (ScrubEvent.tick T)
        = {scrub_run dur adv (arm_pending (forward_target s0.position dur) t1 s0) rest with
            position := seek_clamp
              (((scrub_run dur adv (arm_pending (forward_target s0.position dur) t1 s0)
                  rest).pending_seek_value : ℤ) : ℚ) dur,
            pending_seek_active := false,
            fired := (scrub_run dur adv
                (arm_pending (forward_target s0.position dur) t1 s0) rest).fired
              ++ [(scrub_run dur adv
                (arm_pending (forward_target s0.position dur) t1 s0) rest).pending_seek_value]} := by
      simp only [scrub_step, hact2, if_true]
      rw [if_pos (by rw [htime2]; exact hT)]
    have hrun : scrub_run dur adv s0
        ((ScrubEvent.pressFwd t1 :: rest) ++ [ScrubEvent.tick T])
        = scrub_step dur adv
            (scrub_run dur adv (arm_pending (forward_target s0.position dur) t1 s0) rest)
            (ScrubEvent.tick T) := by
      simp only [scrub_run, List.foldl_cons, List.foldl_append]
      rfl
    refine ⟨hpos, ?_, ?_, hrange.2.2⟩
    · rw [hrun, hstep]
      have hfa : (arm_pending (forward_target s0.position dur) t1 s0).fired = [] := hf
      simp only [hfired2, hval2, hfa]
      rfl
    · rw [hrun, hstep]
      simp only [hval2]
      exact hclamp

/-- Witness for C10: from position 3 (duration 10), two rewinds and a forward
pressed in one quiet period leave the position frozen at 3 and coalesce into
a single debounced seek to 8 = min(10, 3 + 5), within 5 of the frozen
position. -/
theorem press_burst_coalesces_witness :
    (scrub_run 10 (fun _ p => p) ⟨3, false, 0, 0, []⟩
      [ScrubEvent.pressRew 0, ScrubEvent.pressRew 0, ScrubEvent.pressFwd 0]).position = 3
    ∧ (scrub_run 10 (fun _ p => p) ⟨3, false, 0, 0, []⟩
      ([ScrubEvent.pressRew 0, ScrubEvent.pressRew 0, ScrubEvent.pressFwd 0]
        ++ [ScrubEvent.tick 1])).fired = [8] := by
  have h := press_burst_coalesces 10 (fun _ p => p) ⟨3, false, 0, 0, []⟩
    (ScrubEvent.pressRew 0) 0 1 [ScrubEvent.pressRew 0, ScrubEvent.pressFwd 0]
    rfl rfl (by decide) (by decide) (by decide) (Or.inl rfl) (by decide) (by decide)
    (by norm_num [SCRUB_DEBOUNCE, pend_after])
  refine ⟨h.1, h.2.1.trans ?_⟩
  norm_num [pend_after, forward_target, py_int]

end Engine
